import Mathlib

/-!
Verification of the Akumuli query-processor excerpt.

The main subject is the `GroupByTime` stream operator
(`queryprocessor_framework.h`, i.e. `src/unnamed/part_001`, lines 119-205)
and the `StorageSession::get_series_ids` interface (`storage2.h`).

Timestamps and the window bounds are `aku_Timestamp = u64` in the source,
so all arithmetic on them is carried out modulo `2^64`.
-/

/-- `2^64`, the modulus of `u64` (`aku_Timestamp`) arithmetic. -/
def U64 : Nat := 18446744073709551616

/-- `u64` addition: wraps around modulo `2^64`. -/
def u64add (a b : Nat) : Nat := (a + b) % U64

/-- `u64` subtraction for operands `< 2^64`: wraps around modulo `2^64`. -/
def u64sub (a b : Nat) : Nat := (a + U64 - b % U64) % U64

/-- Modelled from the spec (the header `akumuli.h` is not part of the excerpt):
the reserved payload flags `EMPTY`, `LO_MARGIN`, `HI_MARGIN`, used as in-band
control records in the stream, plus the ordinary numeric-payload tag `FLOAT`
for regular data samples. Only distinctness of the tags matters here. -/
inductive PayloadType where
  | EMPTY
  | LO_MARGIN
  | HI_MARGIN
  | FLOAT
  deriving DecidableEq, Repr

/-- Modelled from the spec: the payload of a sample,
`{ value: f64, size: u16, flags: u16 }`. The `f64` value is carried as its
64-bit pattern (`Nat`); no claim computes with it. -/
structure aku_PData where
  value : Nat
  size : Nat
  type : PayloadType
  deriving DecidableEq, Repr

/-- Modelled from the spec: a sample,
`{ param_id: u64, timestamp: u64, payload: { value, size, flags } }`. -/
structure aku_Sample where
  paramid : Nat
  timestamp : Nat
  payload : aku_PData
  deriving DecidableEq, Repr

/-- `sizeof(aku_Sample)` on the reference platform (8 + 8 + 16 bytes);
no claim depends on this value, it only fills the `size` field of the
sentinel samples below. -/
def sizeof_aku_Sample : Nat := 32

/-- Modelled from the spec (`akumuli_def.h` is not part of the excerpt):
the minimum timestamp, `0`. -/
def AKU_MIN_TIMESTAMP : Nat := 0

/-- `NO_DATA` from queryprocessor_framework.h line 73. -/
def NO_DATA : aku_Sample :=
  ⟨0, 0, ⟨0, sizeof_aku_Sample, PayloadType.EMPTY⟩⟩

/-- `SAMPLING_LO_MARGIN` from queryprocessor_framework.h line 75. -/
def SAMPLING_LO_MARGIN : aku_Sample :=
  ⟨0, 0, ⟨0, sizeof_aku_Sample, PayloadType.LO_MARGIN⟩⟩

/-- `SAMPLING_HI_MARGIN` from queryprocessor_framework.h line 79. -/
def SAMPLING_HI_MARGIN : aku_Sample :=
  ⟨0, 0, ⟨0, sizeof_aku_Sample, PayloadType.HI_MARGIN⟩⟩

/-- A downstream `Node` (queryprocessor_framework.h line 83): only its
`put` capability matters to `GroupByTime`. A node may carry internal state
of an arbitrary type `σ`, threaded explicitly; `put` consumes a sample and
answers `true` to continue or `false` to interrupt. -/
structure Node (σ : Type) where
  put : σ → aku_Sample → σ × Bool

/-- The group-by-time statement processor
(queryprocessor_framework.h lines 119-136): the bucket width `step_`,
the `first_hit_` flag and the current window `[lowerbound_, upperbound_)`.
All three timestamps are `u64` values (kept `< 2^64`). -/
structure GroupByTime where
  step_ : Nat
  first_hit_ : Bool
  lowerbound_ : Nat
  upperbound_ : Nat
  deriving DecidableEq, Repr

/-- `GroupByTime::GroupByTime()` (line 139): disabled operator. -/
def GroupByTime.new : GroupByTime :=
  ⟨0, true, AKU_MIN_TIMESTAMP, AKU_MIN_TIMESTAMP⟩

/-- `GroupByTime::GroupByTime(aku_Timestamp step)` (line 147). -/
def GroupByTime.init (step : Nat) : GroupByTime :=
  ⟨step, true, AKU_MIN_TIMESTAMP, AKU_MIN_TIMESTAMP⟩

/-- The first-hit block of `GroupByTime::put` (lines 174-179): on the first
non-empty sample, align the window to `ts / step_ * step_` and clear
`first_hit_`.  (The `u64` sum `aligned + step_` may wrap.) -/
def GroupByTime.align (g : GroupByTime) (ts : Nat) : GroupByTime :=
  if g.first_hit_ then
    { g with
      first_hit_ := false
      lowerbound_ := ts / g.step_ * g.step_
      upperbound_ := u64add (ts / g.step_ * g.step_) g.step_ }
  else g

/-- The `HI_MARGIN` marker emitted by `GroupByTime::put` lines 182-183:
`SAMPLING_HI_MARGIN` with its timestamp set to `u`. -/
def hiMarginAt (u : Nat) : aku_Sample :=
  { SAMPLING_HI_MARGIN with timestamp := u }

/-- The `LO_MARGIN` marker emitted by `GroupByTime::put` lines 191-192:
`SAMPLING_LO_MARGIN` with its timestamp set to `u`. -/
def loMarginAt (u : Nat) : aku_Sample :=
  { SAMPLING_LO_MARGIN with timestamp := u }

/-- The marker that `GroupByTime::put` emits from the (post-alignment)
state `g` for an out-of-window timestamp `ts`: the forward check
`ts >= upperbound_` is tried first (line 180), the backward check
`ts < lowerbound_` second (line 189); both markers carry `upperbound_`. -/
def markerFor (g : GroupByTime) (ts : Nat) : aku_Sample :=
  if g.upperbound_ ≤ ts then hiMarginAt g.upperbound_
  else loMarginAt g.upperbound_

/-- `GroupByTime::put` (queryprocessor_framework.h lines 171-201), with the
downstream node's state threaded explicitly.  Returns
`(continue?, new operator state, new downstream state)`.

Mirrors the source: when `step_` is non-zero and the sample is not `EMPTY`,
run the first-hit alignment, then either emit one `HI_MARGIN` (if
`ts >= upperbound_`) or one `LO_MARGIN` (else if `ts < lowerbound_`) with
timestamp `upperbound_`; if the marker is rejected return `false` at once,
otherwise advance the window one step (forward resp. backward, in `u64`
arithmetic) and finally forward the sample itself (line 200). -/
def GroupByTime.put {σ : Type} (g : GroupByTime) (sample : aku_Sample)
    (next : Node σ) (st : σ) : Bool × GroupByTime × σ :=
  if g.step_ ≠ 0 ∧ sample.payload.type ≠ PayloadType.EMPTY then
    let ts := sample.timestamp
    let g1 := g.align ts
    if g1.upperbound_ ≤ ts then
      -- Forward direction
      let r := next.put st (hiMarginAt g1.upperbound_)
      if r.2 = false then
        (false, g1, r.1)
      else
        let g2 := { g1 with
                    lowerbound_ := u64add g1.lowerbound_ g1.step_
                    upperbound_ := u64add g1.upperbound_ g1.step_ }
        let r2 := next.put r.1 sample
        (r2.2, g2, r2.1)
    else if ts < g1.lowerbound_ then
      -- Backward direction
      let r := next.put st (loMarginAt g1.upperbound_)
      if r.2 = false then
        (false, g1, r.1)
      else
        let g2 := { g1 with
                    lowerbound_ := u64sub g1.lowerbound_ g1.step_
                    upperbound_ := u64sub g1.upperbound_ g1.step_ }
        let r2 := next.put r.1 sample
        (r2.2, g2, r2.1)
    else
      let r := next.put st sample
      (r.2, g1, r.1)
  else
    let r := next.put st sample
    (r.2, g, r.1)

/-- `GroupByTime::empty` (line 203). -/
def GroupByTime.isEmpty (g : GroupByTime) : Bool :=
  g.step_ == 0

/-- A downstream node that records every sample it receives and always
answers `true` (an unbounded cursor). -/
def listSink : Node (List aku_Sample) :=
  ⟨fun st s => (st ++ [s], true)⟩

/-- A downstream node that rejects every sample (a full/cancelled cursor). -/
def falseSink : Node Unit :=
  ⟨fun _ _ => ((), false)⟩

/-- Feed a stream of samples through a `GroupByTime` operator into
`listSink`, returning the final operator state and everything the sink
received. -/
def GroupByTime.putAll (g : GroupByTime) (samples : List aku_Sample)
    (st : List aku_Sample) : GroupByTime × List aku_Sample :=
  match samples with
  | [] => (g, st)
  | s :: rest =>
    let r := GroupByTime.put g s listSink st
    GroupByTime.putAll r.2.1 rest r.2.2

/-- The window invariant of a running `GroupByTime`: width `step_` and
lower bound aligned to a multiple of `step_`. -/
def GroupByTime.windowInv (g : GroupByTime) : Prop :=
  g.upperbound_ = g.lowerbound_ + g.step_ ∧ g.step_ ∣ g.lowerbound_

instance (g : GroupByTime) : Decidable g.windowInv := by
  unfold GroupByTime.windowInv; infer_instance

/-- An ordinary numeric data sample with timestamp `t` (payload type
`FLOAT`, value/size immaterial to the claims). -/
def dataAt (t : Nat) : aku_Sample :=
  ⟨0, t, ⟨0, sizeof_aku_Sample, PayloadType.FLOAT⟩⟩

/-- Modelled from the spec: `StorageSession::get_series_ids`
(declared at storage2.h lines 73-77, implementation not in the excerpt).
The series parser and the name matcher are external collaborators (spec
§1), so they enter as parameters: `tagged name` says whether `name`
parses as a tagged series name of its own, and `resolve` maps a full
canonical series name to its id.  Per the header's doc comment, a joined
name `foo:bar:buz tag=val` is shorthand for `foo tag=val`, `bar tag=val`,
`buz tag=val`; processing the sub-names left to right, a sub-name that is
itself tagged is a `BadInput` failure (`none`), otherwise its id is
appended. -/
def get_series_ids_loop (tagged : String → Bool) (resolve : String → Nat)
    (tagline : String) : List String → Option (List Nat)
  | [] => some []
  | m :: rest =>
    if tagged m then none
    else
      match get_series_ids_loop tagged resolve tagline rest with
      | none => none
      | some ids => some (resolve (m ++ " " ++ tagline) :: ids)

/-- Modelled from the spec: the return convention of `get_series_ids` —
the number of series on success, or the error code times `-1` on failure
(`badInputCode` stands for the numeric value of the `BadInput` status,
which the excerpt does not fix).  The resolved ids are returned alongside
(the content of the output array). -/
def get_series_ids (badInputCode : Int) (tagged : String → Bool)
    (resolve : String → Nat) (subnames : List String) (tagline : String) :
    Int × List Nat :=
  match get_series_ids_loop tagged resolve tagline subnames with
  | none => (-badInputCode, [])
  | some ids => ((ids.length : Int), ids)

/-! ## Helper lemmas -/

theorem align_of_not_first (g : GroupByTime) (ts : Nat) (h : g.first_hit_ = false) :
    g.align ts = g := by
  simp [GroupByTime.align, h]

theorem u64add_eq_of_lt {a b : Nat} (h : a + b < U64) : u64add a b = a + b := by
  simp only [u64add, U64] at *
  omega

theorem u64sub_eq_of_le {a b : Nat} (hba : b ≤ a) (ha : a < U64) :
    u64sub a b = a - b := by
  simp only [u64sub, U64] at *
  omega

theorem get_series_ids_loop_untagged (tagged : String → Bool)
    (resolve : String → Nat) (tagline : String) (subnames : List String)
    (h : ∀ m ∈ subnames, tagged m = false) :
    get_series_ids_loop tagged resolve tagline subnames =
      some (subnames.map (fun m => resolve (m ++ " " ++ tagline))) := by
  induction subnames with
  | nil => rfl
  | cons m rest ih =>
    have hm : tagged m = false := h m (List.mem_cons_self m rest)
    have hrest : ∀ x ∈ rest, tagged x = false :=
      fun x hx => h x (List.mem_cons_of_mem m hx)
    simp [get_series_ids_loop, hm, ih hrest]

theorem get_series_ids_loop_tagged (tagged : String → Bool)
    (resolve : String → Nat) (tagline : String) (subnames : List String)
    (h : ∃ m ∈ subnames, tagged m = true) :
    get_series_ids_loop tagged resolve tagline subnames = none := by
  induction subnames with
  | nil => simp at h
  | cons m rest ih =>
    rcases h with ⟨x, hx, hxt⟩
    rcases List.mem_cons.mp hx with rfl | hxr
    · simp [get_series_ids_loop, hxt]
    · by_cases hm : tagged m = true
      · simp [get_series_ids_loop, hm]
      · have hm' : tagged m = false := by
          cases hmb : tagged m
          · rfl
          · exact absurd hmb hm
        simp [get_series_ids_loop, hm', ih ⟨x, hxr, hxt⟩]

/-! ## Claims -/

/-- C2, counterexample: feeding timestamps 3, 7, 12, 19, 23 to
`GroupByTime` with `step = 10` emits `HI_MARGIN` markers at timestamps
10 and 20 only — not at 10, 20 and 30 as the claim states (the marker at
30 would require a later sample; `put` alone never closes the last
bucket). -/
theorem claim_C2_counterexample :
    ((GroupByTime.putAll (GroupByTime.init 10)
        [dataAt 3, dataAt 7, dataAt 12, dataAt 19, dataAt 23] []).2.filter
          (fun x => x.payload.type = PayloadType.HI_MARGIN)).map
            (fun x => x.timestamp) = [10, 20] ∧
    ¬ ((GroupByTime.putAll (GroupByTime.init 10)
        [dataAt 3, dataAt 7, dataAt 12, dataAt 19, dataAt 23] []).2.filter
          (fun x => x.payload.type = PayloadType.HI_MARGIN)).map
            (fun x => x.timestamp) = [10, 20, 30] := by
  constructor
  · decide
  · decide

/-- C2, amended: for the input stream of non-EMPTY samples with
timestamps 3, 7, 12, 19, 23 fed to `GroupByTime` with `step = 10`, the
samples delivered downstream are the five input samples interleaved with
`HI_MARGIN` markers whose timestamps are 10 and 20 (no marker at 30 is
emitted by `put`). -/
theorem claim_C2_amended :
    (GroupByTime.putAll (GroupByTime.init 10)
        [dataAt 3, dataAt 7, dataAt 12, dataAt 19, dataAt 23] []).2 =
      [dataAt 3, dataAt 7, hiMarginAt 10, dataAt 12, dataAt 19,
       hiMarginAt 20, dataAt 23] := by
  decide

/-- C3: in every call `GroupByTime::put(sample, next)` in which a marker
is emitted (windowing active, non-EMPTY sample, timestamp outside the
post-alignment window) and `next.put` rejects that marker, `put` returns
`false` immediately: the downstream state is exactly the state after that
single marker `put` — in particular the sample itself is never
forwarded — and the operator state is the post-alignment state. -/
theorem claim_C3 {σ : Type} (next : Node σ) (st : σ) (g : GroupByTime)
    (s : aku_Sample) (hstep : g.step_ ≠ 0)
    (hty : s.payload.type ≠ PayloadType.EMPTY)
    (hout : (g.align s.timestamp).upperbound_ ≤ s.timestamp ∨
            s.timestamp < (g.align s.timestamp).lowerbound_)
    (hrej : (next.put st (markerFor (g.align s.timestamp) s.timestamp)).2 = false) :
    GroupByTime.put g s next st =
      (false, g.align s.timestamp,
       (next.put st (markerFor (g.align s.timestamp) s.timestamp)).1) := by
  simp only [GroupByTime.put]
  rw [if_pos ⟨hstep, hty⟩]
  by_cases hhi : (g.align s.timestamp).upperbound_ ≤ s.timestamp
  · have hm : markerFor (g.align s.timestamp) s.timestamp =
        hiMarginAt (g.align s.timestamp).upperbound_ := by
      simp [markerFor, hhi]
    rw [hm] at hrej ⊢
    rw [if_pos hhi]
    simp [hrej]
  · have hlo : s.timestamp < (g.align s.timestamp).lowerbound_ := by
      rcases hout with h | h
      · exact absurd h hhi
      · exact h
    have hm : markerFor (g.align s.timestamp) s.timestamp =
        loMarginAt (g.align s.timestamp).upperbound_ := by
      simp [markerFor, hhi]
    rw [hm] at hrej ⊢
    rw [if_neg hhi, if_pos hlo]
    simp [hrej]

/-- C3, witness: at `step = 10`, window `[0, 10)`, sample timestamp 25 and
a rejecting downstream node, `put` returns `false` with the operator state
untouched and nothing further delivered. -/
theorem claim_C3_witness :
    GroupByTime.put (⟨10, false, 0, 10⟩ : GroupByTime) (dataAt 25)
        falseSink () = (false, (⟨10, false, 0, 10⟩ : GroupByTime), ()) := by
  have h := claim_C3 falseSink () ⟨10, false, 0, 10⟩ (dataAt 25)
    (by decide) (by decide) (Or.inl (by decide)) rfl
  exact h.trans (by decide)

/-- C5, counterexample: from the state `step_ = 10`, `first_hit_ = false`,
`lowerbound_ = 100`, `upperbound_ = 20`, a sample with timestamp 50
satisfies `ts < lowerbound_`, yet the code takes the forward branch first
(`ts >= upperbound_` at line 180): it emits no `LO_MARGIN` at all and
increments the bounds (to 110) instead of decrementing them (to 90). -/
theorem claim_C5_counterexample :
    ((GroupByTime.put (⟨10, false, 100, 20⟩ : GroupByTime) (dataAt 50)
        listSink []).2.2.filter
          (fun x => x.payload.type = PayloadType.LO_MARGIN)) = [] ∧
    (GroupByTime.put (⟨10, false, 100, 20⟩ : GroupByTime) (dataAt 50)
        listSink []).2.1.lowerbound_ = 110 ∧
    ¬ (GroupByTime.put (⟨10, false, 100, 20⟩ : GroupByTime) (dataAt 50)
        listSink []).2.1.lowerbound_ = u64sub 100 10 := by
  refine ⟨by decide, by decide, by decide⟩

/-- C5, amended: for every call `GroupByTime::put(sample, next)` with
`step_ > 0`, `first_hit_` false, and a non-EMPTY sample whose timestamp
`ts` satisfies `ts < lowerbound_` and also `ts < upperbound_` (the
forward check `ts >= upperbound_` takes precedence), if the downstream
node accepts the marker, the operator emits exactly one `LO_MARGIN`
marker whose timestamp equals the current `upperbound_`, subtracts
`step_` from both bounds (`u64` wrap-around subtraction), and then passes
the sample to `next`. -/
theorem claim_C5_amended {σ : Type} (next : Node σ) (st : σ)
    (g : GroupByTime) (s : aku_Sample)
    (hstep : g.step_ ≠ 0) (hfh : g.first_hit_ = false)
    (hty : s.payload.type ≠ PayloadType.EMPTY)
    (hup : s.timestamp < g.upperbound_)
    (hlo : s.timestamp < g.lowerbound_)
    (hacc : (next.put st (loMarginAt g.upperbound_)).2 = true) :
    GroupByTime.put g s next st =
      ((next.put (next.put st (loMarginAt g.upperbound_)).1 s).2,
       { g with lowerbound_ := u64sub g.lowerbound_ g.step_,
                upperbound_ := u64sub g.upperbound_ g.step_ },
       (next.put (next.put st (loMarginAt g.upperbound_)).1 s).1) := by
  have halign : g.align s.timestamp = g := align_of_not_first g s.timestamp hfh
  simp only [GroupByTime.put, halign]
  rw [if_pos ⟨hstep, hty⟩, if_neg (by omega), if_pos hlo]
  simp [hacc]

/-- C5, witness: at `step = 10`, window `[20, 30)`, a sample with
timestamp 15 produces one `LO_MARGIN` at 30, the window moves back to
`[10, 20)`, and the sample follows the marker downstream. -/
theorem claim_C5_witness :
    GroupByTime.put (⟨10, false, 20, 30⟩ : GroupByTime) (dataAt 15)
        listSink [] =
      (true, (⟨10, false, 10, 20⟩ : GroupByTime),
       [loMarginAt 30, dataAt 15]) := by
  have h := claim_C5_amended listSink [] ⟨10, false, 20, 30⟩ (dataAt 15)
    (by decide) rfl (by decide) (by decide) (by decide) rfl
  exact h.trans (by decide)

/-- C6: an `EMPTY` sample is forwarded to `next` unchanged, the call
returns `next.put`'s result, and the whole operator state (`step_`,
`first_hit_`, `lowerbound_`, `upperbound_`) is left untouched: no marker,
no window update. -/
theorem claim_C6 {σ : Type} (next : Node σ) (st : σ) (g : GroupByTime)
    (s : aku_Sample) (hty : s.payload.type = PayloadType.EMPTY) :
    GroupByTime.put g s next st = ((next.put st s).2, g, (next.put st s).1) := by
  simp [GroupByTime.put, hty]

/-- C6, witness: the `NO_DATA` sample passes through a running
`GroupByTime step = 10, window [0, 10)` without touching it. -/
theorem claim_C6_witness :
    GroupByTime.put (⟨10, false, 0, 10⟩ : GroupByTime) NO_DATA
        listSink [] = (true, (⟨10, false, 0, 10⟩ : GroupByTime), [NO_DATA]) := by
  have h := claim_C6 listSink [] ⟨10, false, 0, 10⟩ NO_DATA rfl
  exact h.trans (by decide)

/-- C9: with `step_ = 0` (the state in which `empty()` answers true),
every call forwards the sample to `next` unchanged, returns `next.put`'s
result, and modifies none of the four fields: a disabled group-by-time is
an identity pass-through. -/
theorem claim_C9 {σ : Type} (next : Node σ) (st : σ) (g : GroupByTime)
    (s : aku_Sample) (hempty : g.isEmpty = true) :
    GroupByTime.put g s next st = ((next.put st s).2, g, (next.put st s).1) := by
  have h0 : g.step_ = 0 := by simpa [GroupByTime.isEmpty] using hempty
  simp [GroupByTime.put, h0]

/-- C9, witness: the default-constructed (disabled) operator passes a
sample with timestamp 42 through unchanged. -/
theorem claim_C9_witness :
    GroupByTime.put GroupByTime.new (dataAt 42) listSink [] =
      (true, GroupByTime.new, [dataAt 42]) := by
  have h := claim_C9 listSink [] GroupByTime.new (dataAt 42) rfl
  exact h.trans (by decide)

/-- C10: with `step_ > 0` and `first_hit_` false, when a marker is
emitted (out-of-window timestamp) and `next.put` rejects it, the call
returns `false` and the operator state is exactly the entry state: none
of `step_`, `first_hit_`, `lowerbound_`, `upperbound_` changes, i.e. the
window is not advanced on a rejected marker. -/
theorem claim_C10 {σ : Type} (next : Node σ) (st : σ) (g : GroupByTime)
    (s : aku_Sample) (hstep : g.step_ ≠ 0) (hfh : g.first_hit_ = false)
    (hty : s.payload.type ≠ PayloadType.EMPTY)
    (hout : g.upperbound_ ≤ s.timestamp ∨ s.timestamp < g.lowerbound_)
    (hrej : (next.put st (markerFor g s.timestamp)).2 = false) :
    GroupByTime.put g s next st =
      (false, g, (next.put st (markerFor g s.timestamp)).1) := by
  have halign : g.align s.timestamp = g := align_of_not_first g s.timestamp hfh
  simp only [GroupByTime.put, halign]
  rw [if_pos ⟨hstep, hty⟩]
  by_cases hhi : g.upperbound_ ≤ s.timestamp
  · have hm : markerFor g s.timestamp = hiMarginAt g.upperbound_ := by
      simp [markerFor, hhi]
    rw [hm] at hrej ⊢
    rw [if_pos hhi]
    simp [hrej]
  · have hlo : s.timestamp < g.lowerbound_ := by
      rcases hout with h | h
      · exact absurd h hhi
      · exact h
    have hm : markerFor g s.timestamp = loMarginAt g.upperbound_ := by
      simp [markerFor, hhi]
    rw [hm] at hrej ⊢
    rw [if_neg hhi, if_pos hlo]
    simp [hrej]

/-- C10, witness: at `step = 10`, window `[50, 60)`, a sample with
timestamp 5 triggers a `LO_MARGIN`; with a rejecting downstream node the
call returns `false` and the window stays `[50, 60)`. -/
theorem claim_C10_witness :
    GroupByTime.put (⟨10, false, 50, 60⟩ : GroupByTime) (dataAt 5)
        falseSink () = (false, (⟨10, false, 50, 60⟩ : GroupByTime), ()) := by
  have h := claim_C10 falseSink () ⟨10, false, 50, 60⟩ (dataAt 5)
    (by decide) rfl (by decide) (Or.inr (by decide)) rfl
  exact h.trans (by decide)

/-- C1, counterexample: from the state `step_ = 10`, `first_hit_ = false`,
window `[0, 10)`, a sample with timestamp 25 (which is `≥ upperbound_`
even after one advance) produces exactly one `HI_MARGIN` (at 10) — the
check is not repeated — and the sample is then forwarded while its
timestamp 25 lies outside the final window `[10, 20)`. -/
theorem claim_C1_counterexample :
    (GroupByTime.put (⟨10, false, 0, 10⟩ : GroupByTime) (dataAt 25)
        listSink []).2.2 = [hiMarginAt 10, dataAt 25] ∧
    (GroupByTime.put (⟨10, false, 0, 10⟩ : GroupByTime) (dataAt 25)
        listSink []).2.1.upperbound_ = 20 ∧
    ¬ (dataAt 25).timestamp <
        (GroupByTime.put (⟨10, false, 0, 10⟩ : GroupByTime) (dataAt 25)
          listSink []).2.1.upperbound_ := by
  refine ⟨by decide, by decide, by decide⟩

/-- C1, amended: for every call `GroupByTime::put(sample, next)` with
`step_ > 0`, `first_hit_` false, window of width `step_`, and a non-EMPTY
sample whose timestamp `ts` is `≥ upperbound_`, the operator emits
exactly one `HI_MARGIN` marker with timestamp equal to the current
`upperbound_` and advances the window forward exactly one step — the
check is not repeated — before passing the sample to `next` (assuming
the downstream accepts the marker and the advance does not overflow
`u64`); consequently the forwarded sample's timestamp lies inside the
advanced window `[lowerbound_', upperbound_')` exactly when
`ts < upperbound_ + step_`, i.e. when the sample was less than one step
beyond the old window. -/
theorem claim_C1_amended {σ : Type} (next : Node σ) (st : σ)
    (g : GroupByTime) (s : aku_Sample)
    (hstep : g.step_ ≠ 0) (hfh : g.first_hit_ = false)
    (hty : s.payload.type ≠ PayloadType.EMPTY)
    (hwidth : g.upperbound_ = g.lowerbound_ + g.step_)
    (hhi : g.upperbound_ ≤ s.timestamp)
    (hnof : g.upperbound_ + g.step_ < U64)
    (hacc : (next.put st (hiMarginAt g.upperbound_)).2 = true) :
    GroupByTime.put g s next st =
      ((next.put (next.put st (hiMarginAt g.upperbound_)).1 s).2,
       { g with lowerbound_ := g.lowerbound_ + g.step_,
                upperbound_ := g.upperbound_ + g.step_ },
       (next.put (next.put st (hiMarginAt g.upperbound_)).1 s).1) ∧
    (s.timestamp < g.upperbound_ + g.step_ →
      g.lowerbound_ + g.step_ ≤ s.timestamp ∧
        s.timestamp < g.upperbound_ + g.step_) := by
  constructor
  · have halign : g.align s.timestamp = g := align_of_not_first g s.timestamp hfh
    have h1 : u64add g.lowerbound_ g.step_ = g.lowerbound_ + g.step_ :=
      u64add_eq_of_lt (by omega)
    have h2 : u64add g.upperbound_ g.step_ = g.upperbound_ + g.step_ :=
      u64add_eq_of_lt hnof
    simp only [GroupByTime.put, halign]
    rw [if_pos ⟨hstep, hty⟩, if_pos hhi]
    simp [hacc, h1, h2]
  · intro hlt
    exact ⟨by omega, hlt⟩

/-- C1, witness: at `step = 10`, window `[10, 20)`, a sample with
timestamp 25 yields one `HI_MARGIN` at 20, the window `[20, 30)`, and the
sample forwarded after the marker (25 being inside the new window). -/
theorem claim_C1_witness :
    GroupByTime.put (⟨10, false, 10, 20⟩ : GroupByTime) (dataAt 25)
        listSink [] =
      (true, (⟨10, false, 20, 30⟩ : GroupByTime),
       [hiMarginAt 20, dataAt 25]) := by
  have h := claim_C1_amended listSink [] ⟨10, false, 10, 20⟩ (dataAt 25)
    (by decide) rfl (by decide) (by decide) (by decide) (by decide) rfl
  exact h.1.trans (by decide)

/-- C4, counterexample: for the first put of a sample with timestamp
`2^64 - 1` into a fresh operator with `step = 2`, the `u64` sum
`aligned + step_` wraps to 0, the sample's timestamp therefore triggers
the forward branch at once, and the final `lowerbound_` is 0 — not
`ts / step_ * step_ = 2^64 - 2` as claimed. -/
theorem claim_C4_counterexample :
    (GroupByTime.put (GroupByTime.init 2) (dataAt (U64 - 1))
        listSink []).2.1.lowerbound_ = 0 ∧
    ¬ (GroupByTime.put (GroupByTime.init 2) (dataAt (U64 - 1))
        listSink []).2.1.lowerbound_ = (U64 - 1) / 2 * 2 := by
  refine ⟨by decide, by decide⟩

/-- C4, amended: for every operator with `step_ > 0` in its initial state
(`first_hit_` true), the first put of a non-EMPTY sample with timestamp
`ts` sets `lowerbound_` to `ts / step_ * step_` (integer division),
`upperbound_` to `lowerbound_ + step_`, and clears `first_hit_` —
provided the aligned upper bound `ts / step_ * step_ + step_` does not
overflow `u64` (otherwise the wrapped bound immediately retriggers the
forward branch); the sample itself is forwarded unchanged and no marker
is emitted. -/
theorem claim_C4_amended {σ : Type} (next : Node σ) (st : σ)
    (g : GroupByTime) (s : aku_Sample)
    (hstep : g.step_ ≠ 0) (hfh : g.first_hit_ = true)
    (hty : s.payload.type ≠ PayloadType.EMPTY)
    (hnof : s.timestamp / g.step_ * g.step_ + g.step_ < U64) :
    GroupByTime.put g s next st =
      ((next.put st s).2,
       { g with first_hit_ := false,
                lowerbound_ := s.timestamp / g.step_ * g.step_,
                upperbound_ := s.timestamp / g.step_ * g.step_ + g.step_ },
       (next.put st s).1) := by
  have hadd : u64add (s.timestamp / g.step_ * g.step_) g.step_ =
      s.timestamp / g.step_ * g.step_ + g.step_ := u64add_eq_of_lt hnof
  have halign : g.align s.timestamp =
      { g with first_hit_ := false,
               lowerbound_ := s.timestamp / g.step_ * g.step_,
               upperbound_ := s.timestamp / g.step_ * g.step_ + g.step_ } := by
    simp [GroupByTime.align, hfh, hadd]
  have hub : s.timestamp < s.timestamp / g.step_ * g.step_ + g.step_ :=
    Nat.lt_div_mul_add (Nat.pos_of_ne_zero hstep)
  have hlb : s.timestamp / g.step_ * g.step_ ≤ s.timestamp :=
    Nat.div_mul_le_self s.timestamp g.step_
  simp only [GroupByTime.put, halign]
  rw [if_pos ⟨hstep, hty⟩]
  rw [if_neg (by simpa using Nat.not_le.mpr hub)]
  rw [if_neg (by simpa using Nat.not_lt.mpr hlb)]

/-- C4, witness: the first sample, at timestamp 23, into a fresh operator
with `step = 7` aligns the window to `[21, 28)`, clears `first_hit_`, and
is forwarded with no marker. -/
theorem claim_C4_witness :
    GroupByTime.put (GroupByTime.init 7) (dataAt 23) listSink [] =
      (true, (⟨7, false, 21, 28⟩ : GroupByTime), [dataAt 23]) := by
  have h := claim_C4_amended listSink [] (GroupByTime.init 7) (dataAt 23)
    (by decide) rfl (by decide) (by decide)
  exact h.trans (by decide)

/-- C8, counterexample: the state `step_ = 3`, window
`[2^64 - 4, 2^64 - 1)` satisfies both conditions
(`upperbound_ = lowerbound_ + step_`, `step_ ∣ lowerbound_`), yet putting
a sample with timestamp `2^64 - 1` wraps the advanced `upperbound_`
around to 2 while `lowerbound_` becomes `2^64 - 1`: the width condition
is not preserved. -/
theorem claim_C8_counterexample :
    (⟨3, false, U64 - 4, U64 - 1⟩ : GroupByTime).windowInv ∧
    ¬ ((GroupByTime.put (⟨3, false, U64 - 4, U64 - 1⟩ : GroupByTime)
        (dataAt (U64 - 1)) listSink []).2.1).windowInv := by
  refine ⟨by decide, by decide⟩

/-- C8, amended: for every state with `step_ > 0` and `first_hit_` false
in which `upperbound_ = lowerbound_ + step_` and `step_ ∣ lowerbound_`,
any call to `put` preserves both conditions provided the forward advance
does not overflow `u64` (when `ts ≥ upperbound_`, one needs
`upperbound_ + step_ < 2^64`); and the state is established by the first
put of a non-EMPTY sample from the initial state, provided the aligned
upper bound `ts / step * step + step` does not overflow `u64`. -/
theorem claim_C8_amended {σ : Type} (next : Node σ) (st : σ)
    (g : GroupByTime) (s : aku_Sample) (step : Nat) :
    (g.step_ ≠ 0 → g.first_hit_ = false → g.windowInv →
      g.upperbound_ < U64 →
      (g.upperbound_ ≤ s.timestamp → g.upperbound_ + g.step_ < U64) →
      ((GroupByTime.put g s next st).2.1).windowInv) ∧
    (step ≠ 0 → s.payload.type ≠ PayloadType.EMPTY →
      s.timestamp / step * step + step < U64 →
      ((GroupByTime.put (GroupByTime.init step) s next st).2.1).windowInv) := by
  constructor
  · intro hstep hfh hinv hwf hnof
    obtain ⟨hw, hd⟩ := hinv
    have halign : g.align s.timestamp = g := align_of_not_first g s.timestamp hfh
    by_cases hty : s.payload.type = PayloadType.EMPTY
    · have hcond : ¬ (g.step_ ≠ 0 ∧ s.payload.type ≠ PayloadType.EMPTY) := by
        simp [hty]
      simp only [GroupByTime.put]
      rw [if_neg hcond]
      exact ⟨hw, hd⟩
    · simp only [GroupByTime.put, halign]
      rw [if_pos ⟨hstep, hty⟩]
      by_cases hhi : g.upperbound_ ≤ s.timestamp
      · rw [if_pos hhi]
        by_cases hb : (next.put st (hiMarginAt g.upperbound_)).2 = false
        · rw [if_pos hb]
          exact ⟨hw, hd⟩
        · rw [if_neg hb]
          have h1 : u64add g.lowerbound_ g.step_ = g.lowerbound_ + g.step_ :=
            u64add_eq_of_lt (by omega)
          have h2 : u64add g.upperbound_ g.step_ = g.upperbound_ + g.step_ :=
            u64add_eq_of_lt (hnof hhi)
          refine ⟨?_, ?_⟩
          · simp only [h1, h2]
            omega
          · simp only [h1]
            exact hd.add (dvd_refl g.step_)
      · rw [if_neg hhi]
        by_cases hlo : s.timestamp < g.lowerbound_
        · rw [if_pos hlo]
          by_cases hb : (next.put st (loMarginAt g.upperbound_)).2 = false
          · rw [if_pos hb]
            exact ⟨hw, hd⟩
          · rw [if_neg hb]
            have hlpos : 0 < g.lowerbound_ := lt_of_le_of_lt (Nat.zero_le _) hlo
            have hls : g.step_ ≤ g.lowerbound_ := Nat.le_of_dvd hlpos hd
            have h1 : u64sub g.lowerbound_ g.step_ = g.lowerbound_ - g.step_ :=
              u64sub_eq_of_le hls (by omega)
            have h2 : u64sub g.upperbound_ g.step_ = g.upperbound_ - g.step_ :=
              u64sub_eq_of_le (by omega) hwf
            refine ⟨?_, ?_⟩
            · simp only [h1, h2]
              omega
            · simp only [h1]
              exact Nat.dvd_sub' hd (dvd_refl g.step_)
        · rw [if_neg hlo]
          exact ⟨hw, hd⟩
  · intro hstep hty hnof
    have hadd : u64add (s.timestamp / step * step) step =
        s.timestamp / step * step + step := u64add_eq_of_lt hnof
    have halign : (GroupByTime.init step).align s.timestamp =
        { GroupByTime.init step with
          first_hit_ := false,
          lowerbound_ := s.timestamp / step * step,
          upperbound_ := s.timestamp / step * step + step } := by
      simp [GroupByTime.align, GroupByTime.init, hadd]
    have hub : s.timestamp < s.timestamp / step * step + step :=
      Nat.lt_div_mul_add (Nat.pos_of_ne_zero hstep)
    have hlb : s.timestamp / step * step ≤ s.timestamp :=
      Nat.div_mul_le_self s.timestamp step
    simp only [GroupByTime.put, halign]
    rw [if_pos ⟨hstep, hty⟩]
    rw [if_neg (by simpa using Nat.not_le.mpr hub)]
    rw [if_neg (by simpa using Nat.not_lt.mpr hlb)]
    exact ⟨rfl, dvd_mul_left step (s.timestamp / step)⟩

/-- C8, witness: a forward advance from the aligned window `[20, 30)`
with `step = 10` (sample at 35) keeps the invariant, and the first sample
at 35 into a fresh operator with `step = 7` establishes it. -/
theorem claim_C8_witness :
    ((GroupByTime.put (⟨10, false, 20, 30⟩ : GroupByTime) (dataAt 35)
        listSink []).2.1).windowInv ∧
    ((GroupByTime.put (GroupByTime.init 7) (dataAt 35)
        listSink []).2.1).windowInv := by
  have h := claim_C8_amended listSink [] ⟨10, false, 20, 30⟩ (dataAt 35) 7
  exact ⟨h.1 (by decide) rfl (by decide) (by decide) (by decide),
         h.2 (by decide) (by decide) (by decide)⟩

/-- C7: for every well-formed joined name denoting `k` sub-series (the
list of colon-separated sub-names plus the shared tag line),
`get_series_ids` returns the `k` resolved series ids in the input order
of the sub-names together with the count `k`; and if any sub-name itself
parses as tagged, it fails with the `BadInput` status returned as the
negated error code. -/
theorem claim_C7 (badInputCode : Int) (tagged : String → Bool)
    (resolve : String → Nat) (subnames : List String) (tagline : String) :
    ((∀ m ∈ subnames, tagged m = false) →
      get_series_ids badInputCode tagged resolve subnames tagline =
        ((subnames.length : Int),
         subnames.map (fun m => resolve (m ++ " " ++ tagline)))) ∧
    ((∃ m ∈ subnames, tagged m = true) →
      get_series_ids badInputCode tagged resolve subnames tagline =
        (-badInputCode, [])) := by
  constructor
  · intro h
    simp [get_series_ids,
          get_series_ids_loop_untagged tagged resolve tagline subnames h]
  · intro h
    simp [get_series_ids,
          get_series_ids_loop_tagged tagged resolve tagline subnames h]

/-- C7, witness: for the joined name `cpu:mem host=a` (no sub-name is
tagged, ids resolved by name length here) the call returns the two ids in
order with count 2; and for `cpu:mem host=a` where the sub-name `mem` is
considered tagged, it returns the negated error code. -/
theorem claim_C7_witness :
    get_series_ids 11 (fun _ => false) String.length ["cpu", "mem"] "host=a" =
      (2, [10, 10]) ∧
    get_series_ids 11 (fun m => m == "mem") String.length ["cpu", "mem"] "host=a" =
      (-11, []) := by
  refine ⟨?_, ?_⟩
  · have h := (claim_C7 11 (fun _ => false) String.length ["cpu", "mem"]
      "host=a").1 (by decide)
    exact h.trans (by decide)
  · have h := (claim_C7 11 (fun m => m == "mem") String.length ["cpu", "mem"]
      "host=a").2 ⟨"mem", by decide, by decide⟩
    exact h.trans (by decide)
